import Mathlib

/-!
Verification of the rolling-file appender (`rolling-file-rs`).

The Rust sources are shallowly embedded:
* `CalDT` models a `chrono::DateTime` in a fixed time zone (the appender under
  verification is `RollingFileAppenderUtc`, so equality of timestamps is
  equality of their calendar fields);
* `RollingFrequency` / `RollingConditionBasic` embed
  `rolling_frequency.rs` and `rolling_condition_basic.rs`;
* the stateful engine in `rolling_file_appender_utc.rs` is embedded as pure
  state-passing functions over an abstract filesystem `FsState` (indices of the
  backup series mapped to file lengths) together with an I/O-outcome oracle
  `IoEnv` that decides which underlying filesystem calls fail and how.
  Machine integers (`u64` sizes) are `Nat` with explicit `% 2 ^ 64` where the
  source performs `u64` arithmetic that can overflow.
-/

namespace RollingFile

/-- Model of a `chrono::DateTime` in a fixed time zone: calendar fields down to
seconds.  For `Utc` (a fixed-offset zone), `chrono` equality of datetimes with
in-range fields coincides with equality of the fields. -/
structure CalDT where
  year : Int
  month : Nat
  day : Nat
  hour : Nat
  minute : Nat
  second : Nat
deriving DecidableEq, Repr

/-- Embeds `enum RollingFrequency` from `rolling_frequency.rs`. -/
inductive RollingFrequency
  | EveryDay
  | EveryHour
  | EveryMinute
deriving DecidableEq, Repr

/-- Embeds `RollingFrequency::equivalent_datetime`: truncate the timestamp to
the start of its day / hour / minute, keeping the zone (here implicit). -/
def RollingFrequency.equivalent_datetime : RollingFrequency → CalDT → CalDT
  | .EveryDay, dt => ⟨dt.year, dt.month, dt.day, 0, 0, 0⟩
  | .EveryHour, dt => ⟨dt.year, dt.month, dt.day, dt.hour, 0, 0⟩
  | .EveryMinute, dt => ⟨dt.year, dt.month, dt.day, dt.hour, dt.minute, 0⟩

/-- Spec-side definition (from the spec's words, for comparison with the code):
two timestamps are in the same period when they share the calendar day
(per-day), additionally the hour (per-hour), additionally the minute
(per-minute). -/
def samePeriodSpec : RollingFrequency → CalDT → CalDT → Prop
  | .EveryDay, a, b => a.year = b.year ∧ a.month = b.month ∧ a.day = b.day
  | .EveryHour, a, b => a.year = b.year ∧ a.month = b.month ∧ a.day = b.day ∧ a.hour = b.hour
  | .EveryMinute, a, b =>
      a.year = b.year ∧ a.month = b.month ∧ a.day = b.day ∧ a.hour = b.hour ∧ a.minute = b.minute

/-- Embeds `struct RollingConditionBasicGeneric` from
`rolling_condition_basic.rs` (at the fixed zone of `CalDT`). -/
structure RollingConditionBasic where
  last_write_opt : Option CalDT
  frequency_opt : Option RollingFrequency
  max_size_opt : Option Nat
deriving DecidableEq, Repr

/-- Embeds `RollingConditionBasicGeneric::new`: no condition set yet. -/
def RollingConditionBasic.new : RollingConditionBasic :=
  ⟨none, none, none⟩

/-- Embeds the builder method `frequency`. -/
def RollingConditionBasic.frequency (c : RollingConditionBasic) (x : RollingFrequency) :
    RollingConditionBasic :=
  { c with frequency_opt := some x }

/-- Embeds the builder method `daily`. -/
def RollingConditionBasic.daily (c : RollingConditionBasic) : RollingConditionBasic :=
  { c with frequency_opt := some RollingFrequency.EveryDay }

/-- Embeds the builder method `hourly`. -/
def RollingConditionBasic.hourly (c : RollingConditionBasic) : RollingConditionBasic :=
  { c with frequency_opt := some RollingFrequency.EveryHour }

/-- Embeds the builder method `max_size`. -/
def RollingConditionBasic.max_size (c : RollingConditionBasic) (x : Nat) :
    RollingConditionBasic :=
  { c with max_size_opt := some x }

/-- Embeds `impl Default`: `new().frequency(RollingFrequency::EveryDay)`. -/
def RollingConditionBasic.mkDefault : RollingConditionBasic :=
  RollingConditionBasic.new.frequency RollingFrequency.EveryDay

/-- Embeds `should_rollover` of `impl RollingCondition for
RollingConditionBasicGeneric`: returns the updated condition state together
with the decision.  The two `if let` blocks of the source are the two `match`
layers updating the local `rollover` flag; the last write marker is
unconditionally set to `now` before returning. -/
def RollingConditionBasic.should_rollover (c : RollingConditionBasic) (now : CalDT)
    (current_filesize : Nat) : RollingConditionBasic × Bool :=
  let rollover := false
  let rollover :=
    match c.frequency_opt, c.last_write_opt with
    | some frequency, some last_write =>
        if frequency.equivalent_datetime now ≠ frequency.equivalent_datetime last_write then
          true
        else rollover
    | _, _ => rollover
  let rollover :=
    match c.max_size_opt with
    | some max_size => if current_filesize ≥ max_size then true else rollover
    | none => rollover
  ({ c with last_write_opt := some now }, rollover)

/-- The constant `2 ^ 64`, the modulus of `u64` arithmetic. -/
def u64Mod : Nat := 2 ^ 64

/-- The constant `u64::MAX`. -/
def u64Max : Nat := 2 ^ 64 - 1

/-- Model of `std::io` errors as examined by the engine: the code only ever
inspects the `NotFound` kind; every other operating-system error is carried
abstractly as a numeric code.  `writerMissing` is the one error the engine
builds itself (`"unexpected condition: writer is missing"` in
`write_with_datetime`); an operating-system call never returns that value. -/
inductive IoError
  | notFound
  | other (code : Nat)
  | writerMissing
deriving DecidableEq, Repr

/-- Abstract filesystem restricted to the backup series of one base path:
index `n` stands for `filename_for(n)` (`base` for `n = 0`, `base.n`
otherwise) and is mapped to the length of that file, `none` when absent. -/
structure FsState where
  files : Nat → Option Nat

/-- Embeds `fs::remove_file` on index `n`; the engine ignores its result, so no error
is modelled. -/
def FsState.removeFile (fs : FsState) (n : Nat) : FsState :=
  ⟨fun j => if j = n then none else fs.files j⟩

/-- Embeds `fs::rename` from index `src` to index `dst`, driven by the oracle `errs`:
`errs src = some c` makes the rename fail with the non-`NotFound` error `c`;
otherwise a missing source yields `NotFound` and a present source is moved,
overwriting the destination. -/
def FsState.renameFile (errs : Nat → Option Nat) (fs : FsState) (src dst : Nat) :
    FsState × Except IoError Unit :=
  match errs src with
  | some c => (fs, .error (.other c))
  | none =>
    match fs.files src with
    | none => (fs, .error .notFound)
    | some len =>
        (⟨fun j => if j = dst then some len else if j = src then none else fs.files j⟩, .ok ())

/-- The `for i in (0..max_files.max(1)).rev()` loop body of `rotate_files`:
rename `i` to `i + 1`; a `NotFound` outcome is converted to success by the
`or_else`; any other error overwrites the accumulator `r` and the loop goes
on. -/
def rotateLoop (errs : Nat → Option Nat) :
    FsState → Except IoError Unit → List Nat → FsState × Except IoError Unit
  | fs, r, [] => (fs, r)
  | fs, r, i :: rest =>
    let step := FsState.renameFile errs fs i (i + 1)
    let r' : Except IoError Unit :=
      match step.2 with
      | .error .notFound => r
      | .error e => .error e
      | .ok _ => r
    rotateLoop errs step.1 r' rest

/-- Embeds `RollingFileAppenderUtc::rotate_files`: first delete the file at
index `max(max_files, 1)` ignoring any failure, then run the descending rename
loop starting from `Ok(())`. -/
def rotate_files (maxFiles : Nat) (errs : Nat → Option Nat) (fs : FsState) :
    FsState × Except IoError Unit :=
  let m := max maxFiles 1
  let fs0 := fs.removeFile m
  rotateLoop errs fs0 (.ok ()) (List.range m).reverse

/-- Embeds the mutable fields of `struct RollingFileAppenderUtc<RC>` together
with the pieces of the outside world its methods touch: the backup-series
filesystem, and `errLog`, the process error channel (`eprintln!` warnings
appended in order).  `C` is the rolling-condition state type (the source is
generic over `RC: RollingCondition<Utc>`); the open `BufWriter<File>` is
abstracted to its presence. -/
structure RFA (C : Type) where
  condition : C
  max_files : Nat
  current_filesize : Nat
  writer_opt : Option Unit
  fs : FsState
  errLog : List IoError

/-- Oracle fixing the outcome of each kind of underlying I/O call made during
one engine operation: `some c` makes that call fail with operating-system
error `c`, `none` lets it succeed.  `renameErrs i` governs the rename away
from index `i` inside `rotate_files`. -/
structure IoEnv where
  flushErr : Option Nat
  renameErrs : Nat → Option Nat
  openErr : Option Nat
  writeErr : Option Nat

/-- Embeds `io::Write::flush` for the appender: flush the buffered writer when
one is open (failing as the oracle dictates), succeed trivially otherwise. -/
def RFA.flushOp {C : Type} (env : IoEnv) (s : RFA C) : RFA C × Except IoError Unit :=
  match s.writer_opt with
  | some _ =>
    match env.flushErr with
    | some c => (s, .error (.other c))
    | none => (s, .ok ())
  | none => (s, .ok ())

/-- Embeds `open_writer_if_needed`: when no writer is open, open index `0` in
append-create mode (creating an empty file when absent), store the writer and
set `current_filesize` from the file's metadata length. -/
def RFA.open_writer_if_needed {C : Type} (env : IoEnv) (s : RFA C) :
    RFA C × Except IoError Unit :=
  match s.writer_opt with
  | some _ => (s, .ok ())
  | none =>
    match env.openErr with
    | some c => (s, .error (.other c))
    | none =>
      let fs' : FsState := ⟨fun j => if j = 0 then some ((s.fs.files 0).getD 0) else s.fs.files j⟩
      ({ s with fs := fs', writer_opt := some (),
                current_filesize := (fs'.files 0).getD 0 }, .ok ())

/-- Wraps `rotate_files` as a method of the appender: runs on the appender's
filesystem with its `max_files`. -/
def RFA.rotate_filesOp {C : Type} (env : IoEnv) (s : RFA C) : RFA C × Except IoError Unit :=
  let p := rotate_files s.max_files env.renameErrs s.fs
  ({ s with fs := p.1 }, p.2)

/-- Embeds `rollover`: flush (propagating failure), drop the writer and zero
the tracked size, rotate the files (propagating failure), reopen.  Every
failure is returned directly to the caller. -/
def RFA.rolloverOp {C : Type} (env : IoEnv) (s : RFA C) : RFA C × Except IoError Unit :=
  let f := RFA.flushOp env s
  match f.2 with
  | .error e => (f.1, .error e)
  | .ok _ =>
    let s2 := { f.1 with writer_opt := none, current_filesize := 0 }
    let rt := RFA.rotate_filesOp env s2
    match rt.2 with
    | .error e => (rt.1, .error e)
    | .ok _ => RFA.open_writer_if_needed env rt.1

/-- The tail of `write_with_datetime` after the rollover attempt: ensure a
writer is open (propagating failure), then `write_all` the buffer — on success
the tracked size is bumped by `u64::try_from(buf_len).unwrap_or(u64::MAX)`
(the conversion saturates, the `u64` addition wraps) and the full `buf_len` is
returned; with no writer despite the attempt, fail with the internal
`writerMissing` error.  Only the buffer's length is relevant, so the buffer is
carried as `bufLen`. -/
def RFA.do_append {C : Type} (env : IoEnv) (s : RFA C) (bufLen : Nat) :
    RFA C × Except IoError Nat :=
  match RFA.open_writer_if_needed env s with
  | (s1, .error e) => (s1, .error e)
  | (s1, .ok _) =>
    match s1.writer_opt with
    | some _ =>
      match env.writeErr with
      | some c => (s1, .error (.other c))
      | none =>
        let fs' : FsState :=
          ⟨fun j => if j = 0 then some ((s1.fs.files 0).getD 0 + bufLen) else s1.fs.files j⟩
        ({ s1 with fs := fs',
                   current_filesize := (s1.current_filesize + min bufLen u64Max) % u64Mod },
         .ok bufLen)
    | none => (s1, .error .writerMissing)

/-- Embeds `write_with_datetime`, generic over the rolling condition's
`should_rollover` (`shouldRoll` returns the updated condition state and the
decision): evaluate the condition, on a positive decision attempt a rollover
whose failure is only reported on the error channel, then append. -/
def RFA.write_with_datetime {C : Type} (shouldRoll : C → CalDT → Nat → C × Bool)
    (env : IoEnv) (s : RFA C) (bufLen : Nat) (now : CalDT) : RFA C × Except IoError Nat :=
  let p := shouldRoll s.condition now s.current_filesize
  let s0 := { s with condition := p.1 }
  let s1 :=
    if p.2 then
      let rv := RFA.rolloverOp env s0
      match rv.2 with
      | .error e => { rv.1 with errLog := rv.1.errLog ++ [e] }
      | .ok _ => rv.1
    else s0
  RFA.do_append env s1 bufLen

/-- Embeds `RollingFileAppenderUtc::new`: build the record with zero tracked
size and no writer, then eagerly `open_writer_if_needed`, failing construction
when that fails. -/
def RFA.new {C : Type} (condition : C) (maxFiles : Nat) (fs : FsState) (env : IoEnv) :
    Except IoError (RFA C) :=
  let rfa : RFA C := ⟨condition, maxFiles, 0, none, fs, []⟩
  let o := RFA.open_writer_if_needed env rfa
  match o.2 with
  | .ok _ => .ok o.1
  | .error e => .error e

/-- The first (least-index) entry of the oracle `errs` defined below `n`:
`leastErrBelow errs n = some c` when the least `i < n` with `errs i ≠ none`
carries code `c`.  Because the rename loop of `rotate_files` walks the indices
in descending order and later assignments overwrite the accumulator, this
least index is exactly the *last* non-`NotFound` error the loop encounters. -/
def leastErrBelow (errs : Nat → Option Nat) : Nat → Option Nat
  | 0 => none
  | n + 1 =>
    match leastErrBelow errs n with
    | some c => some c
    | none => errs n

/-- A small concrete filesystem used by witnesses: files of lengths 10 and 20
at indices 0 and 1, nothing else. -/
def wfs : FsState :=
  ⟨fun j => if j = 0 then some 10 else if j = 1 then some 20 else none⟩

/-- The all-success I/O oracle used by witnesses. -/
def envOk : IoEnv :=
  ⟨none, fun _ => none, none, none⟩

/-- A concrete appender state used by witnesses and counterexamples: an
unconfigured basic condition, three retained files, an open writer, and the
tracked size pinned at `u64::MAX`. -/
def sAtMax : RFA RollingConditionBasic :=
  ⟨RollingConditionBasic.new, 3, u64Max, some (), wfs, []⟩

/-- A concrete appender state with no open writer and a 10-byte file on disk
at index 0, tracked size stale at 0. -/
def sClosed : RFA RollingConditionBasic :=
  ⟨RollingConditionBasic.new, 3, 0, none, wfs, []⟩

/-- A fixed concrete timestamp used by witnesses. -/
def dt0 : CalDT := ⟨2021, 3, 30, 1, 2, 3⟩

/-- An I/O oracle whose flush call fails with error code 13. -/
def envFlushErr : IoEnv := ⟨some 13, fun _ => none, none, none⟩

/-- A trivial condition state (over `Unit`) used with an always-true decision
in witnesses exercising the rollover-failure path. -/
def sUnit : RFA Unit := ⟨(), 2, 5, some (), wfs, []⟩

/-- A concrete appender state with an open writer and tracked size 100. -/
def sOpen : RFA RollingConditionBasic :=
  ⟨RollingConditionBasic.new, 3, 100, some (), wfs, []⟩

/-! ### Helper lemmas about the rolling condition -/

/-- The decision of `should_rollover`, characterised: the time check fires when
a frequency and a previous timestamp exist and their periods differ, the size
check fires when a threshold exists and is reached; the two are ORed. -/
theorem should_rollover_iff (c : RollingConditionBasic) (now : CalDT) (size : Nat) :
    (c.should_rollover now size).2 = true ↔
      ((∃ f lw, c.frequency_opt = some f ∧ c.last_write_opt = some lw ∧
          f.equivalent_datetime now ≠ f.equivalent_datetime lw) ∨
        (∃ t, c.max_size_opt = some t ∧ t ≤ size)) := by
  obtain ⟨lw, fo, mo⟩ := c
  simp only [RollingConditionBasic.should_rollover]
  rcases fo with _ | f <;> rcases lw with _ | lw <;> rcases mo with _ | t <;>
    simp <;>
    by_cases h : f.equivalent_datetime now = f.equivalent_datetime lw <;>
    simp [h]

/-- Calling `should_rollover` rewrites only the last-write marker of the state. -/
theorem should_rollover_fst (c : RollingConditionBasic) (now : CalDT) (size : Nat) :
    (c.should_rollover now size).1 = { c with last_write_opt := some now } := rfl

/-- Bucketing agrees with the spec's period relation. -/
theorem samePeriodSpec_iff (f : RollingFrequency) (a b : CalDT) :
    samePeriodSpec f a b ↔ f.equivalent_datetime a = f.equivalent_datetime b := by
  cases f <;>
    simp [samePeriodSpec, RollingFrequency.equivalent_datetime, CalDT.mk.injEq, and_assoc]

/-! ### Claims about the rolling condition -/

/-- C5: whenever a size threshold `t` is configured and `size ≥ t`, the
decision is `true` regardless of the frequency configuration and of the time
check; in general the decision is the OR of the time check and the size check,
either alone sufficing. -/
theorem should_rollover_size_or_time (c : RollingConditionBasic) (now : CalDT) (size : Nat) :
    ((c.should_rollover now size).2 = true ↔
      ((∃ f lw, c.frequency_opt = some f ∧ c.last_write_opt = some lw ∧
          f.equivalent_datetime now ≠ f.equivalent_datetime lw) ∨
        (∃ t, c.max_size_opt = some t ∧ t ≤ size))) ∧
    (∀ t, c.max_size_opt = some t → t ≤ size → (c.should_rollover now size).2 = true) := by
  refine ⟨should_rollover_iff c now size, ?_⟩
  intro t ht hle
  exact (should_rollover_iff c now size).mpr (Or.inr ⟨t, ht, hle⟩)

/-- Witness for C5: a condition with threshold 5 and daily frequency, first
call at size 7, rolls over. -/
theorem should_rollover_size_or_time_witness :
    ((RollingConditionBasic.new.daily.max_size 5).should_rollover
        ⟨2021, 3, 30, 1, 2, 3⟩ 7).2 = true :=
  (should_rollover_size_or_time (RollingConditionBasic.new.daily.max_size 5)
      ⟨2021, 3, 30, 1, 2, 3⟩ 7).2 5 rfl (by norm_num)

/-- C6: on the first call (no previous timestamp recorded) the time check is
skipped: the decision is `true` exactly when a configured size threshold is
met; in particular with no threshold the first call returns `false`. -/
theorem should_rollover_first_call (c : RollingConditionBasic) (now : CalDT) (size : Nat)
    (h : c.last_write_opt = none) :
    (c.should_rollover now size).2 = true ↔ ∃ t, c.max_size_opt = some t ∧ t ≤ size := by
  rw [should_rollover_iff]
  simp [h]

/-- Witness for C6: a freshly built daily condition does not roll over on its
first call. -/
theorem should_rollover_first_call_witness :
    ¬ ((RollingConditionBasic.new.daily.should_rollover ⟨2021, 3, 30, 1, 2, 3⟩ 999).2 = true) := by
  intro hcontra
  obtain ⟨t, ht, -⟩ :=
    (should_rollover_first_call RollingConditionBasic.new.daily ⟨2021, 3, 30, 1, 2, 3⟩ 999
      rfl).mp hcontra
  exact Option.noConfusion ht

/-- C7: every call stores `now` as the new last-write marker (touching nothing
else of the configuration), and the decision of the following call is made
against this call's `now`. -/
theorem should_rollover_updates_marker (c : RollingConditionBasic) (now now2 : CalDT)
    (size size2 : Nat) :
    ((c.should_rollover now size).1 = { c with last_write_opt := some now }) ∧
    (((c.should_rollover now size).1.should_rollover now2 size2).2 = true ↔
      ((∃ f, c.frequency_opt = some f ∧
          f.equivalent_datetime now2 ≠ f.equivalent_datetime now) ∨
        (∃ t, c.max_size_opt = some t ∧ t ≤ size2))) := by
  refine ⟨rfl, ?_⟩
  rw [should_rollover_fst, should_rollover_iff]
  constructor
  · rintro (⟨f, lw, hf, hlw, hne⟩ | hsz)
    · exact Or.inl ⟨f, hf, by cases hlw; exact hne⟩
    · exact Or.inr hsz
  · rintro (⟨f, hf, hne⟩ | hsz)
    · exact Or.inl ⟨f, now, hf, rfl, hne⟩
    · exact Or.inr hsz

/-- C8: `equivalent_datetime` truncates to the canonical representative of the
period: two timestamps are in the same period (in the spec's sense) iff their
representatives are equal, the representative of a timestamp lies in its own
period, and truncation is idempotent. -/
theorem equivalent_datetime_canonical (f : RollingFrequency) (a b dt : CalDT) :
    (samePeriodSpec f a b ↔ f.equivalent_datetime a = f.equivalent_datetime b) ∧
    samePeriodSpec f dt (f.equivalent_datetime dt) ∧
    f.equivalent_datetime (f.equivalent_datetime dt) = f.equivalent_datetime dt := by
  refine ⟨samePeriodSpec_iff f a b, ?_, ?_⟩ <;>
    cases f <;> simp [samePeriodSpec, RollingFrequency.equivalent_datetime]

/-- C3 counterexample: a condition built by `new()` alone (no frequency, no
size threshold) does not roll over on the second of two consecutive calls
whose timestamps lie on different calendar days. -/
theorem new_unconfigured_no_daily_cex :
    (((RollingConditionBasic.new.should_rollover ⟨2021, 3, 30, 1, 2, 3⟩ 0).1).should_rollover
        ⟨2021, 3, 31, 1, 4, 0⟩ 0).2 = false ∧
    ¬ samePeriodSpec RollingFrequency.EveryDay ⟨2021, 3, 30, 1, 2, 3⟩ ⟨2021, 3, 31, 1, 4, 0⟩ := by
  constructor
  · rfl
  · simp [samePeriodSpec]

/-- C3 amended: a condition whose frequency is `EveryDay` (as set by the
`Default` instance) rolls over on the second of two consecutive calls whose
timestamps lie on different calendar days; a condition built by `new()` with
nothing configured never rolls over. -/
theorem default_condition_daily (c : RollingConditionBasic) (now1 now2 : CalDT)
    (s1 s2 : Nat) (lw : Option CalDT) (now : CalDT) (size : Nat)
    (hf : c.frequency_opt = some RollingFrequency.EveryDay)
    (hd : ¬ samePeriodSpec RollingFrequency.EveryDay now1 now2) :
    (((c.should_rollover now1 s1).1.should_rollover now2 s2).2 = true) ∧
    ((RollingConditionBasic.mk lw none none).should_rollover now size).2 = false := by
  constructor
  · refine (should_rollover_updates_marker c now1 now2 s1 s2).2.mpr (Or.inl ?_)
    refine ⟨RollingFrequency.EveryDay, hf, ?_⟩
    intro heq
    exact hd ((samePeriodSpec_iff RollingFrequency.EveryDay now1 now2).mpr heq.symm)
  · rfl

/-- Witness for the amended C3: the `Default`-built condition rolls over
between March 30 and March 31, and a bare `new()` condition never does. -/
theorem default_condition_daily_witness :
    ((RollingConditionBasic.mkDefault.should_rollover ⟨2021, 3, 30, 1, 2, 3⟩ 0).1.should_rollover
        ⟨2021, 3, 31, 1, 4, 0⟩ 0).2 = true ∧
    ((RollingConditionBasic.mk none none none).should_rollover ⟨2021, 3, 30, 1, 2, 3⟩ 0).2 =
      false := by
  have h := default_condition_daily RollingConditionBasic.mkDefault ⟨2021, 3, 30, 1, 2, 3⟩
    ⟨2021, 3, 31, 1, 4, 0⟩ 0 0 none ⟨2021, 3, 30, 1, 2, 3⟩ 0 rfl (by simp [samePeriodSpec])
  exact ⟨h.1, h.2⟩

/-! ### Helper lemmas about the rotation loop -/

/-- The descending index list of the rename loop, peeled once. -/
theorem range_reverse_succ (n : Nat) :
    (List.range (n + 1)).reverse = n :: (List.range n).reverse := by
  rw [List.range_succ, List.reverse_append]
  rfl

/-- The accumulator returned by the rename loop over the descending indices
`m - 1, …, 0` is the error at the least failing index (the last one the loop
visits), or the initial accumulator when no rename fails abnormally. -/
theorem rotateLoop_range_snd (errs : Nat → Option Nat) :
    ∀ (m : Nat) (fs : FsState) (r : Except IoError Unit),
      (rotateLoop errs fs r (List.range m).reverse).2 =
        match leastErrBelow errs m with
        | some c => Except.error (IoError.other c)
        | none => r := by
  intro m
  induction m with
  | zero => intro fs r; rfl
  | succ n ih =>
    intro fs r
    rw [range_reverse_succ]
    simp only [rotateLoop, FsState.renameFile]
    rw [ih]
    simp only [leastErrBelow]
    rcases h1 : leastErrBelow errs n with _ | c
    · rcases h2 : errs n with _ | c2
      · rcases h3 : fs.files n with _ | len <;> simp [h1, h2, h3]
      · simp [h1, h2]
    · rcases h2 : errs n with _ | c2 <;>
        rcases h3 : fs.files n with _ | len <;> simp [h1, h2, h3]

/-- No failing index below `m` means the least-error scan comes up empty. -/
theorem leastErrBelow_eq_none_iff (errs : Nat → Option Nat) (m : Nat) :
    leastErrBelow errs m = none ↔ ∀ i, i < m → errs i = none := by
  induction m with
  | zero => simp [leastErrBelow]
  | succ n ih =>
    simp only [leastErrBelow]
    rcases h1 : leastErrBelow errs n with _ | c
    · have hall := ih.mp h1
      constructor
      · intro h2 i hi
        rcases Nat.lt_succ_iff_lt_or_eq.mp hi with h | h
        · exact hall i h
        · exact h ▸ h2
      · intro h2
        exact h2 n (Nat.lt_succ_self n)
    · constructor
      · intro h; cases h
      · intro h2
        have hnone := ih.mpr fun i hi => h2 i (Nat.lt_succ_of_lt hi)
        rw [hnone] at h1
        cases h1

/-- State effect of the rename loop when no rename fails abnormally: provided
the slot just above the processed range is free, every file below the range is
shifted up by one, slot `0` is vacated, and slots above are untouched. -/
theorem rotateLoop_shift (errs : Nat → Option Nat) :
    ∀ (k : Nat) (g : FsState) (r : Except IoError Unit),
      (∀ i, i < k → errs i = none) → g.files k = none →
      ∀ j, ((rotateLoop errs g r (List.range k).reverse).1).files j =
        if j = 0 ∧ 1 ≤ k then none
        else if 1 ≤ j ∧ j ≤ k then g.files (j - 1)
        else g.files j := by
  intro k
  induction k with
  | zero =>
    intro g r _ _ j
    have h0 : ¬ (j = 0 ∧ 1 ≤ 0) := by omega
    have h1 : ¬ (1 ≤ j ∧ j ≤ 0) := by omega
    simp only [List.range_zero, List.reverse_nil, rotateLoop]
    rw [if_neg h0, if_neg h1]
  | succ n ih =>
    intro g r hE hk j
    rw [range_reverse_succ]
    simp only [rotateLoop, FsState.renameFile, hE n (Nat.lt_succ_self n)]
    rcases hgn : g.files n with _ | len
    · -- the source slot `n` is empty: NotFound, the state is unchanged
      rw [ih g _ (fun i hi => hE i (Nat.lt_succ_of_lt hi)) hgn j]
      have hj : j = 0 ∨ (1 ≤ j ∧ j ≤ n) ∨ j = n + 1 ∨ n + 1 < j := by omega
      rcases hj with h | ⟨ha, hb⟩ | h | h
      · subst h
        have hA : ((0 : Nat) = 0 ∧ 1 ≤ n + 1) := by omega
        rw [if_pos hA]
        rcases Nat.eq_zero_or_pos n with hn | hn
        · subst hn
          have hB : ¬ ((0 : Nat) = 0 ∧ 1 ≤ 0) := by omega
          have hC : ¬ (1 ≤ (0 : Nat) ∧ 0 ≤ 0) := by omega
          rw [if_neg hB, if_neg hC]
          exact hgn
        · exact if_pos ⟨rfl, hn⟩
      · have h0 : ¬ (j = 0 ∧ 1 ≤ n) := by omega
        have h0' : ¬ (j = 0 ∧ 1 ≤ n + 1) := by omega
        simp only [if_neg h0, if_neg h0', if_pos (And.intro ha hb),
          if_pos (And.intro ha (Nat.le_succ_of_le hb))]
      · subst h
        have h0 : ¬ (n + 1 = 0 ∧ 1 ≤ n) := by omega
        have h0' : ¬ (n + 1 = 0 ∧ 1 ≤ n + 1) := by omega
        have h1 : ¬ (1 ≤ n + 1 ∧ n + 1 ≤ n) := by omega
        have h2 : (1 ≤ n + 1 ∧ n + 1 ≤ n + 1) := by omega
        simp only [if_neg h0, if_neg h0', if_neg h1, if_pos h2]
        rw [hk, Nat.add_sub_cancel, hgn]
      · have h0 : ¬ (j = 0 ∧ 1 ≤ n) := by omega
        have h0' : ¬ (j = 0 ∧ 1 ≤ n + 1) := by omega
        have h1 : ¬ (1 ≤ j ∧ j ≤ n) := by omega
        have h2 : ¬ (1 ≤ j ∧ j ≤ n + 1) := by omega
        simp only [if_neg h0, if_neg h0', if_neg h1, if_neg h2]
    · -- the source slot `n` holds a file of length `len`: it moves to `n + 1`
      set g1 : FsState :=
        ⟨fun j => if j = n + 1 then some len else if j = n then none else g.files j⟩ with hg1
      have hg1n : g1.files n = none := by
        simp [hg1, Nat.succ_ne_self]
      rw [ih g1 _ (fun i hi => hE i (Nat.lt_succ_of_lt hi)) hg1n j]
      have hj : j = 0 ∨ (1 ≤ j ∧ j ≤ n) ∨ j = n + 1 ∨ n + 1 < j := by omega
      rcases hj with h | ⟨ha, hb⟩ | h | h
      · subst h
        have hA : ((0 : Nat) = 0 ∧ 1 ≤ n + 1) := by omega
        rw [if_pos hA]
        rcases Nat.eq_zero_or_pos n with hn | hn
        · subst hn
          have hB : ¬ ((0 : Nat) = 0 ∧ 1 ≤ 0) := by omega
          have hC : ¬ (1 ≤ (0 : Nat) ∧ 0 ≤ 0) := by omega
          rw [if_neg hB, if_neg hC]
          simp [hg1]
        · exact if_pos ⟨rfl, hn⟩
      · have h0 : ¬ (j = 0 ∧ 1 ≤ n) := by omega
        have h0' : ¬ (j = 0 ∧ 1 ≤ n + 1) := by omega
        simp only [if_neg h0, if_neg h0', if_pos (And.intro ha hb),
          if_pos (And.intro ha (Nat.le_succ_of_le hb))]
        have e1 : j - 1 ≠ n + 1 := by omega
        have e2 : j - 1 ≠ n := by omega
        simp [hg1, e1, e2]
      · subst h
        have h0 : ¬ (n + 1 = 0 ∧ 1 ≤ n) := by omega
        have h0' : ¬ (n + 1 = 0 ∧ 1 ≤ n + 1) := by omega
        have h1 : ¬ (1 ≤ n + 1 ∧ n + 1 ≤ n) := by omega
        have h2 : (1 ≤ n + 1 ∧ n + 1 ≤ n + 1) := by omega
        simp only [if_neg h0, if_neg h0', if_neg h1, if_pos h2]
        rw [Nat.add_sub_cancel, hgn]
        simp [hg1]
      · have h0 : ¬ (j = 0 ∧ 1 ≤ n) := by omega
        have h0' : ¬ (j = 0 ∧ 1 ≤ n + 1) := by omega
        have h1 : ¬ (1 ≤ j ∧ j ≤ n) := by omega
        have h2 : ¬ (1 ≤ j ∧ j ≤ n + 1) := by omega
        have e1 : j ≠ n + 1 := by omega
        have e2 : j ≠ n := by omega
        simp only [if_neg h0, if_neg h0', if_neg h1, if_neg h2]
        simp [hg1, e1, e2]

/-- C1: `rotate_files` first deletes the file at index `max(max_files, 1)`,
then renames index `i` to `i + 1` for `i` descending from
`max(max_files, 1) - 1` to `0` (visible in the shift of the whole chain when
no rename fails abnormally); a `NotFound` rename is treated as success, any
other rename error does not stop later iterations, and the function returns
`Ok` exactly when no non-`NotFound` error occurred, otherwise the last such
error in loop order — the one at the least failing index, the loop being
descending. -/
theorem rotate_files_spec (maxFiles : Nat) (errs : Nat → Option Nat) (fs : FsState) :
    ((rotate_files maxFiles errs fs).2 =
        match leastErrBelow errs (max maxFiles 1) with
        | some c => Except.error (IoError.other c)
        | none => Except.ok ()) ∧
    ((rotate_files maxFiles errs fs).2 = Except.ok () ↔
      ∀ i, i < max maxFiles 1 → errs i = none) ∧
    ((∀ i, i < max maxFiles 1 → errs i = none) →
      ((rotate_files maxFiles errs fs).1.files 0 = none ∧
        (∀ i, i < max maxFiles 1 →
          (rotate_files maxFiles errs fs).1.files (i + 1) = fs.files i) ∧
        (∀ j, max maxFiles 1 < j →
          (rotate_files maxFiles errs fs).1.files j = fs.files j))) := by
  have hm : 1 ≤ max maxFiles 1 := le_max_right maxFiles 1
  have hrm : (fs.removeFile (max maxFiles 1)).files (max maxFiles 1) = none := by
    simp [FsState.removeFile]
  have hshift := rotateLoop_shift errs (max maxFiles 1) (fs.removeFile (max maxFiles 1))
    (Except.ok ())
  have hsnd := rotateLoop_range_snd errs (max maxFiles 1) (fs.removeFile (max maxFiles 1))
    (Except.ok ())
  simp only [rotate_files]
  refine ⟨hsnd, ?_, ?_⟩
  · rw [hsnd]
    rcases h1 : leastErrBelow errs (max maxFiles 1) with _ | c
    · exact iff_of_true rfl ((leastErrBelow_eq_none_iff errs (max maxFiles 1)).mp h1)
    · refine iff_of_false (by simp) fun h2 => ?_
      rw [(leastErrBelow_eq_none_iff errs (max maxFiles 1)).mpr h2] at h1
      cases h1
  · intro hE
    have hs := hshift hE hrm
    refine ⟨?_, ?_, ?_⟩
    · rw [hs 0, if_pos ⟨rfl, hm⟩]
    · intro i hi
      rw [hs (i + 1)]
      have h0 : ¬ (i + 1 = 0 ∧ 1 ≤ max maxFiles 1) := by omega
      have h1 : (1 ≤ i + 1 ∧ i + 1 ≤ max maxFiles 1) := by omega
      rw [if_neg h0, if_pos h1, Nat.add_sub_cancel]
      simp [FsState.removeFile, Nat.ne_of_lt hi]
    · intro j hj
      rw [hs j]
      have h0 : ¬ (j = 0 ∧ 1 ≤ max maxFiles 1) := by omega
      have h1 : ¬ (1 ≤ j ∧ j ≤ max maxFiles 1) := by omega
      rw [if_neg h0, if_neg h1]
      simp [FsState.removeFile, Nat.ne_of_gt hj]

/-- Witness for C1: rotating `wfs` (files of lengths 10 and 20 at indices 0
and 1) with `max_files = 2` and no failing renames succeeds, vacates index 0
and shifts both files up by one. -/
theorem rotate_files_spec_witness :
    (rotate_files 2 (fun _ => none) wfs).2 = Except.ok () ∧
    (rotate_files 2 (fun _ => none) wfs).1.files 0 = none ∧
    (rotate_files 2 (fun _ => none) wfs).1.files 1 = some 10 ∧
    (rotate_files 2 (fun _ => none) wfs).1.files 2 = some 20 ∧
    (rotate_files 2 (fun _ => none) wfs).1.files 3 = none := by
  obtain ⟨h1, h2, h3⟩ := rotate_files_spec 2 (fun _ => none) wfs
  have hE : ∀ i, i < max 2 1 → (fun _ => (none : Option Nat)) i = none := fun i _ => rfl
  have hs := h3 hE
  refine ⟨h2.mpr hE, hs.1, ?_, ?_, ?_⟩
  · have h := hs.2.1 0 (by norm_num)
    simpa [wfs] using h
  · have h := hs.2.1 1 (by norm_num)
    simpa [wfs] using h
  · have h := hs.2.2 3 (by norm_num)
    simpa [wfs] using h

/-! ### Helper lemmas about the appender engine -/

/-- Flushing never changes the appender state. -/
theorem flushOp_fst {C : Type} (env : IoEnv) (s : RFA C) : (RFA.flushOp env s).1 = s := by
  unfold RFA.flushOp
  rcases s.writer_opt with _ | u <;> rcases env.flushErr with _ | c <;> rfl

/-- The result of flushing: an error exactly when a writer is open and the
flush call fails. -/
theorem flushOp_snd {C : Type} (env : IoEnv) (s : RFA C) :
    (RFA.flushOp env s).2 =
      match s.writer_opt, env.flushErr with
      | some _, some c => Except.error (IoError.other c)
      | _, _ => Except.ok () := by
  unfold RFA.flushOp
  rcases s.writer_opt with _ | u <;> rcases env.flushErr with _ | c <;> rfl

/-- Opening with a writer already present is a no-op. -/
theorem open_writer_some {C : Type} (env : IoEnv) (s : RFA C) (hw : s.writer_opt = some ()) :
    RFA.open_writer_if_needed env s = (s, Except.ok ()) := by
  unfold RFA.open_writer_if_needed
  rw [hw]

/-- Opening with no writer and a failing open call returns the error and
leaves the state unchanged. -/
theorem open_writer_err {C : Type} (env : IoEnv) (s : RFA C) (c : Nat)
    (hw : s.writer_opt = none) (ho : env.openErr = some c) :
    RFA.open_writer_if_needed env s = (s, Except.error (IoError.other c)) := by
  unfold RFA.open_writer_if_needed
  rw [hw, ho]

/-- Opening with no writer and a succeeding open call: the file at index 0 is
created if absent, a writer is stored, and the tracked size is re-derived from
the file's on-disk length. -/
theorem open_writer_opened {C : Type} (env : IoEnv) (s : RFA C)
    (hw : s.writer_opt = none) (ho : env.openErr = none) :
    (RFA.open_writer_if_needed env s).2 = Except.ok () ∧
    (RFA.open_writer_if_needed env s).1.writer_opt = some () ∧
    (RFA.open_writer_if_needed env s).1.current_filesize = (s.fs.files 0).getD 0 ∧
    (RFA.open_writer_if_needed env s).1.fs.files 0 = some ((s.fs.files 0).getD 0) ∧
    (RFA.open_writer_if_needed env s).1.condition = s.condition := by
  unfold RFA.open_writer_if_needed
  rw [hw, ho]
  exact ⟨rfl, rfl, by simp, by simp, rfl⟩

/-- A successful open guarantees a writer is present afterwards. -/
theorem open_writer_ok_some {C : Type} (env : IoEnv) (s : RFA C) :
    (RFA.open_writer_if_needed env s).2 = Except.ok () →
    ((RFA.open_writer_if_needed env s).1).writer_opt = some () := by
  rcases hw : s.writer_opt with _ | u
  · rcases ho : env.openErr with _ | c
    · intro _
      exact (open_writer_opened env s hw ho).2.1
    · rw [open_writer_err env s c hw ho]
      intro h
      cases h
  · cases u
    rw [open_writer_some env s hw]
    intro _
    exact hw

/-- The result of the append stage, characterised: an open failure surfaces
when no writer was present, otherwise the write call decides; the internal
`writerMissing` error never appears. -/
theorem do_append_snd {C : Type} (env : IoEnv) (s : RFA C) (n : Nat) :
    (RFA.do_append env s n).2 =
      match s.writer_opt, env.openErr, env.writeErr with
      | none, some c, _ => Except.error (IoError.other c)
      | _, _, some c => Except.error (IoError.other c)
      | _, _, none => Except.ok n := by
  unfold RFA.do_append
  rcases hw : s.writer_opt with _ | u <;> rcases ho : env.openErr with _ | c <;>
    rcases he : env.writeErr with _ | c2
  · simp [RFA.open_writer_if_needed, hw, ho, he]
  · simp [RFA.open_writer_if_needed, hw, ho, he]
  · simp [RFA.open_writer_if_needed, hw, ho, he]
  · simp [RFA.open_writer_if_needed, hw, ho, he]
  · cases u
    rw [open_writer_some env s hw]
    simp [hw, he]
  · cases u
    rw [open_writer_some env s hw]
    simp [hw, he]
  · cases u
    rw [open_writer_some env s hw]
    simp [hw, he]
  · cases u
    rw [open_writer_some env s hw]
    simp [hw, he]

/-- The append stage never produces the internal `writerMissing` error. -/
theorem do_append_ne_writerMissing {C : Type} (env : IoEnv) (s : RFA C) (n : Nat) :
    (RFA.do_append env s n).2 ≠ Except.error IoError.writerMissing := by
  rw [do_append_snd]
  rcases s.writer_opt with _ | u <;> rcases env.openErr with _ | c <;>
    rcases env.writeErr with _ | c2 <;> simp

/-- When neither the open nor the write call fails, appending succeeds and
returns the full buffer length. -/
theorem do_append_ok {C : Type} (env : IoEnv) (s : RFA C) (n : Nat)
    (ho : env.openErr = none) (he : env.writeErr = none) :
    (RFA.do_append env s n).2 = Except.ok n := by
  rw [do_append_snd, ho, he]
  rcases s.writer_opt with _ | u <;> rfl

/-- Size arithmetic of a successful append through an already-open writer:
the tracked size becomes `(size + min n u64::MAX) mod 2 ^ 64`. -/
theorem do_append_size_open {C : Type} (env : IoEnv) (s : RFA C) (n : Nat)
    (hw : s.writer_opt = some ()) (he : env.writeErr = none) :
    (RFA.do_append env s n).2 = Except.ok n ∧
    (RFA.do_append env s n).1.current_filesize =
      (s.current_filesize + min n u64Max) % u64Mod := by
  unfold RFA.do_append
  rw [open_writer_some env s hw]
  simp [hw, he]

/-- Size arithmetic of a successful append after a lazy reopen: the tracked
size is re-derived from the on-disk length and then bumped. -/
theorem do_append_size_closed {C : Type} (env : IoEnv) (s : RFA C) (n : Nat)
    (hw : s.writer_opt = none) (ho : env.openErr = none) (he : env.writeErr = none) :
    (RFA.do_append env s n).2 = Except.ok n ∧
    (RFA.do_append env s n).1.current_filesize =
      ((s.fs.files 0).getD 0 + min n u64Max) % u64Mod := by
  unfold RFA.do_append
  simp [RFA.open_writer_if_needed, hw, ho, he]

/-- The result of `rotate_files` does not depend on the filesystem contents:
it is the least failing rename index's error, when one exists. -/
theorem rotate_files_snd (maxFiles : Nat) (errs : Nat → Option Nat) (fs : FsState) :
    (rotate_files maxFiles errs fs).2 =
      match leastErrBelow errs (max maxFiles 1) with
      | some c => Except.error (IoError.other c)
      | none => Except.ok () := by
  simp only [rotate_files]
  exact rotateLoop_range_snd errs (max maxFiles 1) (fs.removeFile (max maxFiles 1))
    (Except.ok ())

/-- The result of the explicit rollover, characterised: a flush failure, else
the rename chain's recorded error, else the reopen's outcome — every failure
is returned directly. -/
theorem rolloverOp_snd {C : Type} (env : IoEnv) (s : RFA C) :
    (RFA.rolloverOp env s).2 =
      match s.writer_opt, env.flushErr with
      | some _, some c => Except.error (IoError.other c)
      | _, _ =>
        match leastErrBelow env.renameErrs (max s.max_files 1) with
        | some c => Except.error (IoError.other c)
        | none =>
          match env.openErr with
          | some c => Except.error (IoError.other c)
          | none => Except.ok () := by
  simp only [RFA.rolloverOp]
  rw [flushOp_snd, flushOp_fst]
  rcases hw : s.writer_opt with _ | u <;> rcases hf : env.flushErr with _ | cf <;>
    first
      | rfl
      | (simp only [RFA.rotate_filesOp, rotate_files_snd]
         rcases hl : leastErrBelow env.renameErrs (max s.max_files 1) with _ | cr <;>
           simp only [hl] <;>
           first
             | rfl
             | (rcases ho : env.openErr with _ | co <;>
                 simp [RFA.open_writer_if_needed, ho]))

/-! ### Claims about the appender engine -/

/-- C2: if the rollover condition triggers during `write_with_datetime` and
the rollover fails, the failure is appended to the process error channel and
the returned value is exactly the append stage's own result on the
post-rollover state; when neither the open nor the append call fails the
write returns the buffer length no matter how the rollover went; the explicit
`rollover()` operation instead returns any flush / rename-chain / reopen
failure directly to the caller. -/
theorem write_swallows_rollover_error {C : Type} (shouldRoll : C → CalDT → Nat → C × Bool)
    (env : IoEnv) (s : RFA C) (bufLen : Nat) (now : CalDT) :
    ((shouldRoll s.condition now s.current_filesize).2 = true →
      ∀ sr e,
        RFA.rolloverOp env
            { s with condition := (shouldRoll s.condition now s.current_filesize).1 } =
          (sr, Except.error e) →
        RFA.write_with_datetime shouldRoll env s bufLen now =
          RFA.do_append env { sr with errLog := sr.errLog ++ [e] } bufLen) ∧
    (env.openErr = none → env.writeErr = none →
      (RFA.write_with_datetime shouldRoll env s bufLen now).2 = Except.ok bufLen) ∧
    ((RFA.rolloverOp env s).2 =
      match s.writer_opt, env.flushErr with
      | some _, some c => Except.error (IoError.other c)
      | _, _ =>
        match leastErrBelow env.renameErrs (max s.max_files 1) with
        | some c => Except.error (IoError.other c)
        | none =>
          match env.openErr with
          | some c => Except.error (IoError.other c)
          | none => Except.ok ()) := by
  refine ⟨?_, ?_, rolloverOp_snd env s⟩
  · intro hp sr e hr
    simp [RFA.write_with_datetime, hp, hr]
  · intro ho he
    simp only [RFA.write_with_datetime]
    exact do_append_ok env _ bufLen ho he

/-- Witness for C2: with a flush failure (code 13) and an always-true
condition, the write appends the rollover failure to the error channel and
returns the append stage's own result. -/
theorem write_swallows_rollover_error_witness :
    RFA.write_with_datetime (fun c _ _ => (c, true)) envFlushErr sUnit 4 dt0 =
      RFA.do_append envFlushErr { sUnit with errLog := sUnit.errLog ++ [IoError.other 13] } 4 :=
  (write_swallows_rollover_error (fun c _ _ => (c, true)) envFlushErr sUnit 4 dt0).1
    rfl sUnit (IoError.other 13) rfl

/-- C10: whenever `open_writer_if_needed` returns `Ok` a writer is present,
so the `"writer is missing"` internal-error branch of `write_with_datetime`
is unreachable: no write ever returns that error. -/
theorem writer_missing_unreachable {C : Type} (shouldRoll : C → CalDT → Nat → C × Bool)
    (env : IoEnv) (s : RFA C) (bufLen : Nat) (now : CalDT) :
    ((RFA.open_writer_if_needed env s).2 = Except.ok () →
      ((RFA.open_writer_if_needed env s).1).writer_opt = some ()) ∧
    (RFA.write_with_datetime shouldRoll env s bufLen now).2 ≠
      Except.error IoError.writerMissing := by
  refine ⟨open_writer_ok_some env s, ?_⟩
  simp only [RFA.write_with_datetime]
  exact do_append_ne_writerMissing env _ bufLen

/-- Witness for C10 at a concrete closed-writer state. -/
theorem writer_missing_unreachable_witness :
    ((RFA.open_writer_if_needed envOk sClosed).1).writer_opt = some () ∧
    (RFA.write_with_datetime RollingConditionBasic.should_rollover envOk sClosed 3 dt0).2 ≠
      Except.error IoError.writerMissing := by
  have h := writer_missing_unreachable RollingConditionBasic.should_rollover envOk sClosed 3 dt0
  exact ⟨h.1 rfl, h.2⟩

/-- C4 counterexample: with the tracked size at `u64::MAX`, appending one
byte wraps the tracked size to `0`, while the claim's saturating formula
`min(s + n, u64::MAX)` yields `u64::MAX`, which is nonzero; the call still
returns the full buffer length. -/
theorem write_size_saturating_cex :
    (RFA.write_with_datetime RollingConditionBasic.should_rollover envOk sAtMax 1
        dt0).1.current_filesize = 0 ∧
    (RFA.write_with_datetime RollingConditionBasic.should_rollover envOk sAtMax 1
        dt0).2 = Except.ok 1 ∧
    min (sAtMax.current_filesize + 1) u64Max = u64Max ∧
    u64Max ≠ 0 := by
  exact ⟨by decide, by rfl, by decide, by decide⟩

/-- C4 amended: when the underlying append succeeds, the tracked size becomes
`(s + min(n, u64::MAX)) mod 2 ^ 64` — the `usize → u64` conversion of the
buffer length saturates but the `u64` addition wraps rather than saturates —
and the call returns the buffer's full length. -/
theorem write_size_wrapping {C : Type} (shouldRoll : C → CalDT → Nat → C × Bool)
    (env : IoEnv) (s t : RFA C) (n : Nat) (now : CalDT) :
    ((shouldRoll s.condition now s.current_filesize).2 = false →
      s.writer_opt = some () → env.writeErr = none →
      (RFA.write_with_datetime shouldRoll env s n now).2 = Except.ok n ∧
      (RFA.write_with_datetime shouldRoll env s n now).1.current_filesize =
        (s.current_filesize + min n u64Max) % u64Mod) ∧
    (t.writer_opt = some () → env.writeErr = none →
      (RFA.do_append env t n).2 = Except.ok n ∧
      (RFA.do_append env t n).1.current_filesize =
        (t.current_filesize + min n u64Max) % u64Mod) := by
  constructor
  · intro hp hw he
    simp only [RFA.write_with_datetime, hp, Bool.false_eq_true, if_false]
    exact do_append_size_open env _ n hw he
  · intro hw he
    exact do_append_size_open env t n hw he

/-- Witness for C4: appending 7 bytes at tracked size 100 yields 107. -/
theorem write_size_wrapping_witness :
    (RFA.write_with_datetime RollingConditionBasic.should_rollover envOk sOpen 7 dt0).2 =
      Except.ok 7 ∧
    (RFA.write_with_datetime RollingConditionBasic.should_rollover envOk sOpen 7
        dt0).1.current_filesize = 107 := by
  have h := (write_size_wrapping RollingConditionBasic.should_rollover envOk sOpen sOpen 7
    dt0).1 rfl rfl rfl
  refine ⟨h.1, ?_⟩
  rw [h.2]
  decide

/-- C9: whenever the engine opens a writer the tracked size is set from the
file's actual on-disk length, never assumed zero: on the explicit open, at
construction, and on the lazy reopen inside a write after an external close —
where the final tracked size is the pre-existing on-disk length plus the
newly appended bytes. -/
theorem open_rederives_size {C : Type} (shouldRoll : C → CalDT → Nat → C × Bool)
    (env : IoEnv) (s : RFA C) (n : Nat) (now : CalDT) (cond : C) (mf : Nat) (fs : FsState) :
    (s.writer_opt = none → env.openErr = none →
      (RFA.open_writer_if_needed env s).2 = Except.ok () ∧
      (RFA.open_writer_if_needed env s).1.current_filesize = (s.fs.files 0).getD 0) ∧
    (env.openErr = none →
      Except.map (fun a => a.current_filesize) (RFA.new cond mf fs env) =
        Except.ok ((fs.files 0).getD 0)) ∧
    (s.writer_opt = none → env.openErr = none → env.writeErr = none →
      (shouldRoll s.condition now s.current_filesize).2 = false →
      n ≤ u64Max → (s.fs.files 0).getD 0 + n < u64Mod →
      (RFA.write_with_datetime shouldRoll env s n now).1.current_filesize =
        (s.fs.files 0).getD 0 + n) := by
  refine ⟨?_, ?_, ?_⟩
  · intro hw ho
    have h := open_writer_opened env s hw ho
    exact ⟨h.1, h.2.2.1⟩
  · intro ho
    simp only [RFA.new]
    have h := open_writer_opened env (⟨cond, mf, 0, none, fs, []⟩ : RFA C) rfl ho
    rw [h.1]
    simp only [Except.map]
    rw [h.2.2.1]
  · intro hw ho he hp hn hlt
    simp only [RFA.write_with_datetime, hp, Bool.false_eq_true, if_false]
    have h := do_append_size_closed env
      ({ s with condition := (shouldRoll s.condition now s.current_filesize).1 }) n hw ho he
    rw [h.2]
    show ((s.fs.files 0).getD 0 + min n u64Max) % u64Mod = (s.fs.files 0).getD 0 + n
    rw [min_eq_left hn]
    exact Nat.mod_eq_of_lt hlt

/-- Witness for C9 at a closed-writer state over a 10-byte file. -/
theorem open_rederives_size_witness :
    (RFA.open_writer_if_needed envOk sClosed).1.current_filesize = 10 ∧
    Except.map (fun a => a.current_filesize)
        (RFA.new RollingConditionBasic.new 3 wfs envOk) = Except.ok 10 ∧
    (RFA.write_with_datetime RollingConditionBasic.should_rollover envOk sClosed 4
        dt0).1.current_filesize = 14 := by
  have h := open_rederives_size RollingConditionBasic.should_rollover envOk sClosed 4 dt0
    RollingConditionBasic.new 3 wfs
  refine ⟨?_, ?_, ?_⟩
  · have h1 := (h.1 rfl rfl).2
    simpa [wfs] using h1
  · have h2 := h.2.1 rfl
    simpa [wfs] using h2
  · have h3 := h.2.2 rfl rfl rfl rfl (by decide) (by decide)
    simpa [wfs] using h3

end RollingFile
